import Mathlib

/-!
Shallow embedding of the mymac repository: the macOS-style dock magnification
logic (src/src/components/mac-os-dock.tsx), the window manager state map
(src/src/components/window-manager.tsx), the page-level open-apps handlers
(the DockDemo page), and the per-window drag/resize state machine (the
MacWindow component).

Dock numerics are embedded over the real numbers; window-manager geometry is
embedded over the rationals (every constant in that code is rational), which
keeps those definitions executable.
-/

namespace MacSim

/-- Dock icon descriptor: interface DockApp of mac-os-dock.tsx. -/
structure DockApp where
  id : String
  name : String
  icon : String
deriving DecidableEq

/-- Fixed dock configuration constant baseIconSize = 64. -/
noncomputable def baseIconSize : ℝ := 64

/-- Fixed dock configuration constant maxScale = 1.8. -/
noncomputable def maxScale : ℝ := 1.8

/-- Fixed dock configuration constant effectWidth = 300. -/
noncomputable def effectWidth : ℝ := 300

/-- Fixed dock configuration constant minScale = 1.0. -/
noncomputable def minScale : ℝ := 1.0

/-- Fixed dock configuration constant baseSpacing = 8. -/
noncomputable def baseSpacing : ℝ := 8

/-- Normal (unscaled) center of icon `index`:
`(index * (baseIconSize + baseSpacing)) + (baseIconSize / 2)`. -/
noncomputable def normalIconCenter (index : ℕ) : ℝ :=
  (index * (baseIconSize + baseSpacing)) + (baseIconSize / 2)

/-- Body of the per-icon map inside calculateTargetMagnification for a
non-null mouse position. -/
noncomputable def targetScaleAt (mousePosition : ℝ) (index : ℕ) : ℝ :=
  let minX := mousePosition - (effectWidth / 2)
  let maxX := mousePosition + (effectWidth / 2)
  if normalIconCenter index < minX ∨ normalIconCenter index > maxX then
    minScale
  else
    let theta := ((normalIconCenter index - minX) / effectWidth) * (2 * Real.pi)
    let cappedTheta := min (max theta 0) (2 * Real.pi)
    let scaleFactor := (1 - Real.cos cappedTheta) / 2
    minScale + (scaleFactor * (maxScale - minScale))

/-- The calculateTargetMagnification callback: for a null mouse position every
icon gets minScale; otherwise each icon index gets the cosine falloff scale. -/
noncomputable def calculateTargetMagnification (apps : List DockApp)
    (mousePosition : Option ℝ) : List ℝ :=
  match mousePosition with
  | none => apps.map (fun _ => minScale)
  | some m => apps.mapIdx (fun index _ => targetScaleAt m index)

/-- Accumulator loop of calculatePositions: currentX starts at 0 and advances
by scaledWidth + baseSpacing per icon, emitting each scaled center. -/
noncomputable def calculatePositionsAux (currentX : ℝ) : List ℝ → List ℝ
  | [] => []
  | scale :: rest =>
    let scaledWidth := baseIconSize * scale
    let centerX := currentX + (scaledWidth / 2)
    centerX :: calculatePositionsAux (currentX + (scaledWidth + baseSpacing)) rest

/-- The calculatePositions callback. -/
noncomputable def calculatePositions (scales : List ℝ) : List ℝ :=
  calculatePositionsAux 0 scales

/-- Interpolation factor of the animation loop: 0.2 while the pointer is
active (mouseX not null), 0.12 otherwise. -/
noncomputable def lerpFactor (mouseX : Option ℝ) : ℝ :=
  if mouseX.isSome then 0.2 else 0.12

/-- One interpolation step of animateToTarget:
`currentValue + (target - currentValue) * f`. -/
noncomputable def lerpStep (current target f : ℝ) : ℝ :=
  current + (target - current) * f

/-- One tick of the animateToTarget loop: both state arrays are eased toward
their targets by the current lerp factor. -/
noncomputable def animateToTarget (apps : List DockApp) (mouseX : Option ℝ)
    (prevScales prevPositions : List ℝ) : List ℝ × List ℝ :=
  let targetScales := calculateTargetMagnification apps mouseX
  let targetPositions := calculatePositions targetScales
  let f := lerpFactor mouseX
  (prevScales.mapIdx (fun index current => lerpStep current (targetScales.getD index 0) f),
   prevPositions.mapIdx (fun index current => lerpStep current (targetPositions.getD index 0) f))

/-- The scalesNeedUpdate check of the tick: some current scale is farther than
0.002 from its target. -/
def scalesNeedUpdate (currentScales targetScales : List ℝ) : Prop :=
  ∃ i : ℕ, ∃ h : i < currentScales.length,
    |currentScales.get ⟨i, h⟩ - targetScales.getD i 0| > 0.002

/-- The positionsNeedUpdate check of the tick: some current position is
farther than 0.1 from its target. -/
def positionsNeedUpdate (currentPositions targetPositions : List ℝ) : Prop :=
  ∃ i : ℕ, ∃ h : i < currentPositions.length,
    |currentPositions.get ⟨i, h⟩ - targetPositions.getD i 0| > 0.1

/-- The reschedule decision at the end of a tick:
`scalesNeedUpdate || positionsNeedUpdate || mouseX !== null`. -/
def reschedules (apps : List DockApp) (mouseX : Option ℝ)
    (currentScales currentPositions : List ℝ) : Prop :=
  scalesNeedUpdate currentScales (calculateTargetMagnification apps mouseX) ∨
  positionsNeedUpdate currentPositions
    (calculatePositions (calculateTargetMagnification apps mouseX)) ∨
  mouseX ≠ none

/-- Window record: interface WindowData of window-manager.tsx. Geometry is
rational (every constant in the source is a rational literal). -/
structure WindowData where
  id : String
  title : String
  icon : String
  isOpen : Bool
  isMinimized : Bool
  zIndex : ℕ
  position : ℚ × ℚ
  size : ℚ × ℚ
deriving DecidableEq

/-- Window manager component state: the windows record map (modelled as an
association list with distinct keys, matching a JS object) and the
highestZIndex counter (initially 1000). -/
structure ManagerState where
  windows : List (String × WindowData)
  highestZIndex : ℕ
deriving DecidableEq

/-- Lookup of windows[appId] in the association-list model of the record. -/
def lookupWindow (ws : List (String × WindowData)) (appId : String) :
    Option WindowData :=
  (ws.find? (fun p => p.fst == appId)).map Prod.snd

/-- Update of the entry at key appId via f, leaving other entries alone; a
no-op when the key is absent (callers guard on presence). Models the JS
spread update of one key of the windows object. -/
def updateWindow (ws : List (String × WindowData)) (appId : String)
    (f : WindowData → WindowData) : List (String × WindowData) :=
  ws.map (fun p => if p.fst == appId then (p.fst, f p.snd) else p)

/-- Insertion of key appId: replaces the existing entry or appends a new one,
matching the JS object spread with a computed key. -/
def insertWindow (ws : List (String × WindowData)) (appId : String)
    (w : WindowData) : List (String × WindowData) :=
  if ws.any (fun p => p.fst == appId) then updateWindow ws appId (fun _ => w)
  else ws ++ [(appId, w)]

/-- Initial window width constant of getWindowData. -/
def windowWidth : ℚ := 800

/-- Initial window height constant of getWindowData. -/
def windowHeight : ℚ := 600

/-- macScreenWidth = 520 / 0.45 of getWindowData. -/
def macScreenWidth : ℚ := 520 / 0.45

/-- macScreenHeight = 360 / 0.45 of getWindowData. -/
def macScreenHeight : ℚ := 360 / 0.45

/-- baseX of getWindowData: Math.max(50, (macScreenWidth - windowWidth) / 2). -/
def windowBaseX : ℚ := max 50 ((macScreenWidth - windowWidth) / 2)

/-- baseY of getWindowData:
Math.max(50, (macScreenHeight - windowHeight) / 2 - 300). -/
def windowBaseY : ℚ := max 50 ((macScreenHeight - windowHeight) / 2 - 300)

/-- The getWindowData callback: returns the existing record unchanged, throws
for an unknown app id, and otherwise creates a record at the base position
offset by 30 per existing record, with the next stacking index, also
recording the state updates performed by setWindows / setHighestZIndex. -/
def getWindowData (apps : List DockApp) (st : ManagerState) (appId : String) :
    Except String (WindowData × ManagerState) :=
  match lookupWindow st.windows appId with
  | some w => .ok (w, st)
  | none =>
    match apps.find? (fun a => a.id == appId) with
    | none => .error ("App with id " ++ appId ++ " not found")
    | some app =>
      let offset : ℚ := (st.windows.length : ℚ) * 30
      let newWindow : WindowData :=
        { id := appId
          title := app.name
          icon := app.icon
          isOpen := true
          isMinimized := false
          zIndex := st.highestZIndex + 1
          position := (windowBaseX + offset, windowBaseY + offset)
          size := (windowWidth, windowHeight) }
      .ok (newWindow,
        { windows := insertWindow st.windows appId newWindow
          highestZIndex := st.highestZIndex + 1 })

/-- The handleWindowClose callback: sets isOpen to false on the record when
present, never deleting it. -/
def handleWindowClose (st : ManagerState) (appId : String) : ManagerState :=
  { st with windows := updateWindow st.windows appId (fun w => { w with isOpen := false }) }

/-- The handleWindowMinimize callback: toggles isMinimized when present. -/
def handleWindowMinimize (st : ManagerState) (appId : String) : ManagerState :=
  { st with
      windows := updateWindow st.windows appId
        (fun w => { w with isMinimized := !w.isMinimized }) }

/-- Body of the newApps forEach of the dock-click effect: if the snapshot has
a non-open record for appId, re-open it, clearing isMinimized and keeping
zIndex. -/
def applyNewApp (snapshot : List (String × WindowData)) (st : ManagerState)
    (appId : String) : ManagerState :=
  match lookupWindow snapshot appId with
  | some w =>
    if w.isOpen = false then
      { st with
          windows := updateWindow st.windows appId
            (fun prev => { prev with isOpen := true, isMinimized := false, zIndex := prev.zIndex }) }
    else st
  | none => st

/-- Body of the reClickedApps forEach of the dock-click effect: clear
isMinimized on the record. -/
def applyReclick (st : ManagerState) (appId : String) : ManagerState :=
  { st with
      windows := updateWindow st.windows appId
        (fun prev => { prev with isMinimized := false }) }

/-- The dock-click useEffect of WindowManager: newApps are the open apps not
previously open, reClickedApps the previously-open apps whose record is
minimized; newly opened apps are re-opened first, then minimized ones
restored. Both filters read the snapshot taken when the effect fires. -/
def dockClickEffect (prevOpenApps openApps : List String) (st : ManagerState) :
    ManagerState :=
  let newApps := openApps.filter (fun a => !(prevOpenApps.contains a))
  let reClickedApps := openApps.filter (fun a =>
    prevOpenApps.contains a &&
      (((lookupWindow st.windows a).map (fun w => w.isMinimized)).getD false))
  let st1 := newApps.foldl (applyNewApp st.windows) st
  reClickedApps.foldl applyReclick st1

/-- The page-level handleAppClick of the DockDemo page: append the app id to
openApps unless already present. -/
def handleAppClick (openApps : List String) (appId : String) : List String :=
  if openApps.contains appId then openApps else openApps ++ [appId]

/-- The page-level handleAppClose of the DockDemo page: remove the app id from
openApps. -/
def handleAppClose (openApps : List String) (appId : String) : List String :=
  openApps.filter (fun a => !(a == appId))

/-- One dock click as the program actually runs it: handleAppClick computes
the next openApps, and the WindowManager dock-click effect (whose dependency
is the openApps state) fires only when that state actually changed. When the
id is already present, handleAppClick returns the previous array itself, the
framework bails out on the identical state value, and no effect runs. -/
def dockClickStep (openApps : List String) (st : ManagerState) (appId : String) :
    List String × ManagerState :=
  let openApps2 := handleAppClick openApps appId
  if openApps2 = openApps then (openApps2, st)
  else (openApps2, dockClickEffect openApps openApps2 st)

/-- Local state of the MacWindow component: position and size, the drag /
resize / maximize flags, and the drag offset. -/
structure MacWindowState where
  position : ℚ × ℚ
  size : ℚ × ℚ
  isDragging : Bool
  isResizing : Bool
  isMaximized : Bool
  dragOffset : ℚ × ℚ
deriving DecidableEq

/-- Events handled by the MacWindow component that touch its local state. -/
inductive MacWindowEvent where
  | mouseDownTitle (clientX clientY rectLeft rectTop : ℚ)
  | mouseMove (clientX clientY : ℚ)
  | mouseUp
  | maximizeClick
  | resizeHandleMouseDown
deriving DecidableEq

/-- Transition function of the MacWindow component: handleMouseDown on the
title bar, handleMouseMove (drag with container clamping; it updates position
only), handleMouseUp, handleMaximize, and the resize-handle onMouseDown
(which only sets the isResizing flag). -/
def macWindowStep (s : MacWindowState) (e : MacWindowEvent) : MacWindowState :=
  match e with
  | .mouseDownTitle clientX clientY rectLeft rectTop =>
    { s with isDragging := true
             dragOffset := (clientX - rectLeft, clientY - rectTop) }
  | .mouseMove clientX clientY =>
    if s.isDragging && !s.isMaximized then
      let containerWidth : ℚ := 520 / 0.45
      let containerHeight : ℚ := 360 / 0.45
      let newX := clientX - s.dragOffset.1
      let newY := clientY - s.dragOffset.2
      let maxX := containerWidth - s.size.1
      let maxY := containerHeight - s.size.2
      { s with position := (max 0 (min maxX newX), max 0 (min maxY newY)) }
    else s
  | .mouseUp => { s with isDragging := false, isResizing := false }
  | .maximizeClick => { s with isMaximized := !s.isMaximized }
  | .resizeHandleMouseDown => { s with isResizing := true }

/-- Sample dock app list used to instantiate the theorems below on concrete
inputs (mirrors two entries of the page's sampleApps). -/
def demoApps : List DockApp :=
  [{ id := "finder", name := "Finder", icon := "i" },
   { id := "safari", name := "Safari", icon := "j" }]

/-- Empty initial manager state: no windows, highestZIndex = 1000. -/
def demoState : ManagerState := { windows := [], highestZIndex := 1000 }

/-- The record created by the first getWindowData call for finder on the
empty state. -/
def demoCreated : WindowData :=
  { id := "finder", title := "Finder", icon := "i", isOpen := true,
    isMinimized := false, zIndex := 1001,
    position := (windowBaseX + (0 : ℚ) * 30, windowBaseY + (0 : ℚ) * 30),
    size := (windowWidth, windowHeight) }

/-- Manager state holding the single finder record. -/
def demoState1 : ManagerState :=
  { windows := [("finder", demoCreated)], highestZIndex := 1001 }

/-- Minimized variant of the demo finder record. -/
def demoMinimized : WindowData := { demoCreated with isMinimized := true }

/-- Manager state holding the minimized finder record. -/
def demoStateMin : ManagerState :=
  { windows := [("finder", demoMinimized)], highestZIndex := 1001 }

/-- Concrete MacWindow local state used for witnesses. -/
def demoMacWindow : MacWindowState :=
  { position := (50, 50), size := (800, 600), isDragging := false,
    isResizing := false, isMaximized := false, dragOffset := (0, 0) }

/-- Unfolding of lookupWindow on a cons cell. -/
theorem lookupWindow_cons (p : String × WindowData)
    (rest : List (String × WindowData)) (k : String) :
    lookupWindow (p :: rest) k =
      if p.fst == k then some p.snd else lookupWindow rest k := by
  by_cases h : (p.fst == k) = true
  · simp [lookupWindow, h]
  · simp [lookupWindow, h]

/-- Updating key k and then looking k up yields the mapped entry. -/
theorem lookupWindow_updateWindow_self (ws : List (String × WindowData))
    (k : String) (f : WindowData → WindowData) :
    lookupWindow (updateWindow ws k f) k = (lookupWindow ws k).map f := by
  induction ws with
  | nil => rfl
  | cons p rest ih =>
    have hcons : updateWindow (p :: rest) k f =
        (if p.fst == k then (p.fst, f p.snd) else p) :: updateWindow rest k f := rfl
    rw [hcons]
    by_cases h : (p.fst == k) = true
    · rw [if_pos h, lookupWindow_cons, lookupWindow_cons, if_pos h, if_pos h]
      rfl
    · rw [if_neg h, lookupWindow_cons, lookupWindow_cons, if_neg h, if_neg h, ih]

/-- Updating key k leaves lookups of other keys unchanged. -/
theorem lookupWindow_updateWindow_ne (ws : List (String × WindowData))
    (k k' : String) (f : WindowData → WindowData) (hne : k' ≠ k) :
    lookupWindow (updateWindow ws k f) k' = lookupWindow ws k' := by
  induction ws with
  | nil => rfl
  | cons p rest ih =>
    have hcons : updateWindow (p :: rest) k f =
        (if p.fst == k then (p.fst, f p.snd) else p) :: updateWindow rest k f := rfl
    rw [hcons]
    by_cases h : (p.fst == k) = true
    · have hk : p.fst = k := by simpa using h
      have h' : (p.fst == k') = false := by
        simp [hk]
        exact fun he => hne he.symm
      rw [if_pos h, lookupWindow_cons, lookupWindow_cons]
      simp only [h']
      rw [if_neg (by simp [h']), if_neg (by simp [h']), ih]
    · rw [if_neg h, lookupWindow_cons, lookupWindow_cons, ih]

/-- Folding applyReclick over ids all different from k leaves the record at k
alone. -/
theorem lookup_foldl_applyReclick_ne (l : List String) (st : ManagerState)
    (k : String) (h : ∀ a ∈ l, a ≠ k) :
    lookupWindow (l.foldl applyReclick st).windows k = lookupWindow st.windows k := by
  induction l generalizing st with
  | nil => rfl
  | cons a rest ih =>
    rw [List.foldl_cons, ih _ (fun b hb => h b (List.mem_cons_of_mem _ hb))]
    have step : lookupWindow (updateWindow st.windows a
        (fun prev => { prev with isMinimized := false })) k = lookupWindow st.windows k :=
      lookupWindow_updateWindow_ne _ _ _ _ (h a (List.mem_cons_self a rest)).symm
    exact step

/-- Folding applyReclick over a list of ids clears isMinimized at k exactly
when k is in the list, and otherwise leaves the record alone. -/
theorem lookup_foldl_applyReclick_some (l : List String) (st : ManagerState)
    (k : String) (w : WindowData) (hw : lookupWindow st.windows k = some w) :
    lookupWindow (l.foldl applyReclick st).windows k =
      some (if k ∈ l then { w with isMinimized := false } else w) := by
  induction l generalizing st w with
  | nil => simpa using hw
  | cons a rest ih =>
    rw [List.foldl_cons]
    by_cases hak : a = k
    · subst hak
      have hst : lookupWindow (applyReclick st a).windows a =
          some { w with isMinimized := false } := by
        have base : lookupWindow (updateWindow st.windows a
            (fun prev => { prev with isMinimized := false })) a =
            (lookupWindow st.windows a).map (fun prev => { prev with isMinimized := false }) :=
          lookupWindow_updateWindow_self _ _ _
        rw [hw] at base
        exact base
      rw [ih _ _ hst]
      by_cases hmem : a ∈ rest
      · rw [if_pos hmem, if_pos (List.mem_cons_self a rest)]
      · rw [if_neg hmem, if_pos (List.mem_cons_self a rest)]
    · have hst : lookupWindow (applyReclick st a).windows k = some w := by
        have base : lookupWindow (updateWindow st.windows a
            (fun prev => { prev with isMinimized := false })) k = lookupWindow st.windows k :=
          lookupWindow_updateWindow_ne _ _ _ _ (fun he => hak he.symm)
        rw [hw] at base
        exact base
      rw [ih _ _ hst]
      have hiff : (k ∈ a :: rest) ↔ (k ∈ rest) := by
        constructor
        · intro hc
          rcases List.mem_cons.mp hc with he | hm
          · exact absurd he.symm hak
          · exact hm
        · exact fun hm => List.mem_cons_of_mem a hm
      by_cases hmem : k ∈ rest
      · rw [if_pos hmem, if_pos (hiff.mpr hmem)]
      · rw [if_neg hmem, if_neg (fun hc => hmem (hiff.mp hc))]

/-- applyNewApp leaves any key other than the processed one alone. -/
theorem lookup_applyNewApp_ne (snap : List (String × WindowData))
    (st : ManagerState) (a k : String) (h : k ≠ a) :
    lookupWindow (applyNewApp snap st a).windows k = lookupWindow st.windows k := by
  cases hsnap : lookupWindow snap a with
  | none =>
    have : applyNewApp snap st a = st := by
      unfold applyNewApp
      rw [hsnap]
    rw [this]
  | some w =>
    by_cases hw : w.isOpen = false
    · have : applyNewApp snap st a = { st with
          windows := updateWindow st.windows a
            (fun prev => { prev with isOpen := true, isMinimized := false, zIndex := prev.zIndex }) } := by
        unfold applyNewApp
        rw [hsnap]
        exact if_pos hw
      rw [this]
      have step := lookupWindow_updateWindow_ne st.windows a k
        (fun prev => { prev with isOpen := true, isMinimized := false, zIndex := prev.zIndex }) h
      exact step
    · have : applyNewApp snap st a = st := by
        unfold applyNewApp
        rw [hsnap]
        exact if_neg hw
      rw [this]

/-- A list filtered by the complement of its own membership test is empty. -/
theorem filter_not_contains_self (l : List String) :
    l.filter (fun a => !(l.contains a)) = [] := by
  rw [List.filter_eq_nil_iff]
  intro a ha
  simp [ha]

/-- Zeta-reduced form of dockClickEffect. -/
theorem dockClickEffect_eq (prevOpen openL : List String) (st : ManagerState) :
    dockClickEffect prevOpen openL st =
      (openL.filter (fun a => prevOpen.contains a &&
          (((lookupWindow st.windows a).map (fun v => v.isMinimized)).getD false))).foldl
        applyReclick
        ((openL.filter (fun a => !(prevOpen.contains a))).foldl (applyNewApp st.windows) st) :=
  rfl

/-- After appending a fresh id, the newApps filter of the effect is exactly
that id. -/
theorem newApps_of_append_fresh (prevOpen : List String) (appId : String)
    (h : appId ∉ prevOpen) :
    (prevOpen ++ [appId]).filter (fun a => !(prevOpen.contains a)) = [appId] := by
  rw [List.filter_append, filter_not_contains_self]
  simp [h]

/-- C3: closing a window sets its open flag to false but keeps the record in
the window map with position and size unchanged, and reopening the same
identifier (dock click adding it back to openApps, then the dock-click
effect, then the render's getWindowData) yields a window whose position is
the position held at close time, not a freshly computed one. -/
theorem C3_close_retains_geometry_and_reopen_restores
    (apps : List DockApp) (s : ManagerState) (appId : String) (w : WindowData)
    (prevOpen : List String)
    (hw : lookupWindow s.windows appId = some w)
    (hnp : appId ∉ prevOpen) :
    lookupWindow (handleWindowClose s appId).windows appId =
      some { w with isOpen := false } ∧
    (∃ w₂ : WindowData,
      lookupWindow (dockClickEffect prevOpen (handleAppClick prevOpen appId)
          (handleWindowClose s appId)).windows appId = some w₂ ∧
      w₂.position = w.position ∧ w₂.size = w.size ∧
      getWindowData apps
          (dockClickEffect prevOpen (handleAppClick prevOpen appId)
            (handleWindowClose s appId)) appId =
        .ok (w₂, dockClickEffect prevOpen (handleAppClick prevOpen appId)
          (handleWindowClose s appId))) := by
  have hclose : lookupWindow (handleWindowClose s appId).windows appId =
      some { w with isOpen := false } := by
    have base := lookupWindow_updateWindow_self s.windows appId
      (fun v => { v with isOpen := false })
    rw [hw] at base
    exact base
  refine ⟨hclose, ?_⟩
  have hcont : prevOpen.contains appId = false := by simp [hnp]
  have hclick : handleAppClick prevOpen appId = prevOpen ++ [appId] := by
    unfold handleAppClick
    rw [if_neg]
    rw [hcont]
    exact Bool.false_ne_true
  have happly : applyNewApp (handleWindowClose s appId).windows
      (handleWindowClose s appId) appId =
      { handleWindowClose s appId with
          windows := updateWindow (handleWindowClose s appId).windows appId
            (fun prev => { prev with isOpen := true, isMinimized := false, zIndex := prev.zIndex }) } := by
    unfold applyNewApp
    rw [hclose]
    rfl
  have hafter : lookupWindow (applyNewApp (handleWindowClose s appId).windows
      (handleWindowClose s appId) appId).windows appId =
      some { w with isOpen := true, isMinimized := false } := by
    rw [happly]
    have base := lookupWindow_updateWindow_self (handleWindowClose s appId).windows appId
      (fun prev => { prev with isOpen := true, isMinimized := false, zIndex := prev.zIndex })
    rw [hclose] at base
    exact base
  have hre : ∀ a ∈ (prevOpen ++ [appId]).filter (fun a => prevOpen.contains a &&
      (((lookupWindow (handleWindowClose s appId).windows a).map
        (fun v => v.isMinimized)).getD false)), a ≠ appId := by
    intro a ha he
    have hpred := (List.mem_filter.mp ha).2
    simp only [Bool.and_eq_true] at hpred
    have hmem : a ∈ prevOpen := by simpa using hpred.1
    exact hnp (he ▸ hmem)
  have hfinal : lookupWindow (dockClickEffect prevOpen (handleAppClick prevOpen appId)
      (handleWindowClose s appId)).windows appId =
      some { w with isOpen := true, isMinimized := false } := by
    rw [hclick, dockClickEffect_eq, newApps_of_append_fresh prevOpen appId hnp]
    rw [lookup_foldl_applyReclick_ne _ _ _ (hre)]
    rw [List.foldl_cons, List.foldl_nil]
    exact hafter
  refine ⟨{ w with isOpen := true, isMinimized := false }, hfinal, rfl, rfl, ?_⟩
  unfold getWindowData
  rw [hfinal]

/-- C4: clicking the dock icon of an already-open, non-minimized window
leaves openApps unchanged and leaves the window record (position, size,
stacking index and flags) untouched. -/
theorem C4_reopen_open_window_is_noop
    (s : ManagerState) (openApps : List String) (appId : String) (w : WindowData)
    (hw : lookupWindow s.windows appId = some w)
    (hopen : w.isOpen = true) (hmin : w.isMinimized = false)
    (hmem : appId ∈ openApps) :
    handleAppClick openApps appId = openApps ∧
    lookupWindow (dockClickEffect openApps (handleAppClick openApps appId) s).windows
      appId = some w := by
  have hcont : openApps.contains appId = true := by simpa using hmem
  have hclick : handleAppClick openApps appId = openApps := by
    unfold handleAppClick
    rw [if_pos hcont]
  refine ⟨hclick, ?_⟩
  rw [hclick, dockClickEffect_eq, filter_not_contains_self, List.foldl_nil]
  have hbase := lookup_foldl_applyReclick_some
    (openApps.filter (fun a => openApps.contains a &&
      (((lookupWindow s.windows a).map (fun v => v.isMinimized)).getD false)))
    s appId w hw
  have hnotmem : appId ∉ openApps.filter (fun a => openApps.contains a &&
      (((lookupWindow s.windows a).map (fun v => v.isMinimized)).getD false)) := by
    intro hc
    have hpred := (List.mem_filter.mp hc).2
    simp only [Bool.and_eq_true] at hpred
    have := hpred.2
    rw [hw] at this
    simp [hmin] at this
  rw [hbase, if_neg hnotmem]

/-- When the dock-click effect does run with a minimized id present in both
the previous and the current openApps, its reClickedApps branch clears the
minimized flag while leaving position, size and stacking index unchanged.
This is the intended restore path of the source; see the claim theorem below
for what the program actually does on a re-click. -/
theorem dockClickEffect_clears_minimized_when_run
    (s : ManagerState) (openApps : List String) (appId : String) (w : WindowData)
    (hw : lookupWindow s.windows appId = some w)
    (hmin : w.isMinimized = true)
    (hmem : appId ∈ openApps) :
    ∃ w₂ : WindowData,
      lookupWindow (dockClickEffect openApps (handleAppClick openApps appId) s).windows
        appId = some w₂ ∧
      w₂.isMinimized = false ∧ w₂.position = w.position ∧ w₂.size = w.size ∧
      w₂.zIndex = w.zIndex := by
  have hcont : openApps.contains appId = true := by simpa using hmem
  have hclick : handleAppClick openApps appId = openApps := by
    unfold handleAppClick
    rw [if_pos hcont]
  rw [hclick, dockClickEffect_eq, filter_not_contains_self, List.foldl_nil]
  have hbase := lookup_foldl_applyReclick_some
    (openApps.filter (fun a => openApps.contains a &&
      (((lookupWindow s.windows a).map (fun v => v.isMinimized)).getD false)))
    s appId w hw
  have hismem : appId ∈ openApps.filter (fun a => openApps.contains a &&
      (((lookupWindow s.windows a).map (fun v => v.isMinimized)).getD false)) := by
    refine List.mem_filter.mpr ⟨hmem, ?_⟩
    simp only [Bool.and_eq_true]
    refine ⟨hcont, ?_⟩
    rw [hw]
    simpa using hmin
  rw [hbase, if_pos hismem]
  exact ⟨{ w with isMinimized := false }, rfl, rfl, rfl, rfl, rfl⟩

/-- C5: requesting the window state of a listed app with no record creates a
record at the base position offset by 30 per existing record in each axis
(so records created at different record counts get distinct positions) whose
stacking index is strictly greater than that of every existing record; the
highestZIndex counter strictly increases. -/
theorem C5_create_record_offset_position_next_zindex
    (apps : List DockApp) (s : ManagerState) (appId : String) (app : DockApp)
    (hfind : apps.find? (fun a => a.id == appId) = some app)
    (habs : lookupWindow s.windows appId = none)
    (hinv : ∀ p ∈ s.windows, p.2.zIndex ≤ s.highestZIndex) :
    ∃ (w : WindowData) (st₂ : ManagerState),
      getWindowData apps s appId = .ok (w, st₂) ∧
      w.position = (windowBaseX + (s.windows.length : ℚ) * 30,
                    windowBaseY + (s.windows.length : ℚ) * 30) ∧
      (∀ n : ℕ, n ≠ s.windows.length →
        windowBaseX + (n : ℚ) * 30 ≠ windowBaseX + (s.windows.length : ℚ) * 30) ∧
      (∀ p ∈ s.windows, p.2.zIndex < w.zIndex) ∧
      w.zIndex = s.highestZIndex + 1 ∧
      st₂.highestZIndex = s.highestZIndex + 1 := by
  have hgw : getWindowData apps s appId = .ok
      ({ id := appId, title := app.name, icon := app.icon, isOpen := true,
         isMinimized := false, zIndex := s.highestZIndex + 1,
         position := (windowBaseX + (s.windows.length : ℚ) * 30,
                      windowBaseY + (s.windows.length : ℚ) * 30),
         size := (windowWidth, windowHeight) },
       { windows := insertWindow s.windows appId
           { id := appId, title := app.name, icon := app.icon, isOpen := true,
             isMinimized := false, zIndex := s.highestZIndex + 1,
             position := (windowBaseX + (s.windows.length : ℚ) * 30,
                          windowBaseY + (s.windows.length : ℚ) * 30),
             size := (windowWidth, windowHeight) }
         highestZIndex := s.highestZIndex + 1 }) := by
    unfold getWindowData
    rw [habs, hfind]
  refine ⟨_, _, hgw, rfl, ?_, ?_, rfl, rfl⟩
  · intro n hn heq
    apply hn
    have h30 : (n : ℚ) * 30 = (s.windows.length : ℚ) * 30 := by linarith
    have hq : (n : ℚ) = (s.windows.length : ℚ) :=
      mul_right_cancel₀ (by norm_num) h30
    exact_mod_cast hq
  · intro p hp
    exact Nat.lt_succ_of_le (hinv p hp)

/-- C6: getWindowData fails exactly when the identifier has no record and is
absent from the apps list, and for every identifier with a record or present
in the apps list it returns a window record without error. -/
theorem C6_error_iff_unknown (apps : List DockApp) (s : ManagerState)
    (appId : String) :
    ((∃ e, getWindowData apps s appId = .error e) ↔
      (lookupWindow s.windows appId = none ∧
        apps.find? (fun a => a.id == appId) = none)) ∧
    ((lookupWindow s.windows appId ≠ none ∨ ∃ a ∈ apps, a.id = appId) →
      ∃ w st₂, getWindowData apps s appId = .ok (w, st₂)) := by
  cases hl : lookupWindow s.windows appId with
  | some w =>
    have hok : getWindowData apps s appId = .ok (w, s) := by
      unfold getWindowData
      rw [hl]
    constructor
    · constructor
      · rintro ⟨e, he⟩
        rw [hok] at he
        exact absurd he (by simp)
      · rintro ⟨h1, _⟩
        exact absurd h1 (by simp)
    · intro _
      exact ⟨w, s, hok⟩
  | none =>
    cases hf : apps.find? (fun a => a.id == appId) with
    | some app =>
      have hok : getWindowData apps s appId = .ok
          ({ id := appId, title := app.name, icon := app.icon, isOpen := true,
             isMinimized := false, zIndex := s.highestZIndex + 1,
             position := (windowBaseX + (s.windows.length : ℚ) * 30,
                          windowBaseY + (s.windows.length : ℚ) * 30),
             size := (windowWidth, windowHeight) },
           { windows := insertWindow s.windows appId
               { id := appId, title := app.name, icon := app.icon, isOpen := true,
                 isMinimized := false, zIndex := s.highestZIndex + 1,
                 position := (windowBaseX + (s.windows.length : ℚ) * 30,
                              windowBaseY + (s.windows.length : ℚ) * 30),
                 size := (windowWidth, windowHeight) }
             highestZIndex := s.highestZIndex + 1 }) := by
        unfold getWindowData
        rw [hl, hf]
      constructor
      · constructor
        · rintro ⟨e, he⟩
          rw [hok] at he
          exact absurd he (by simp)
        · rintro ⟨_, h2⟩
          exact absurd h2 (by simp [hf])
      · intro _
        exact ⟨_, _, hok⟩
    | none =>
      have herr : getWindowData apps s appId =
          .error ("App with id " ++ appId ++ " not found") := by
        unfold getWindowData
        rw [hl, hf]
      constructor
      · exact ⟨fun _ => ⟨rfl, rfl⟩, fun _ => ⟨_, herr⟩⟩
      · intro hor
        exfalso
        rcases hor with hne | ⟨a, hamem, haid⟩
        · exact hne rfl
        · have := List.find?_eq_none.mp hf a hamem
          exact this (by simp [haid])

/-- Updating one record with a size-preserving function preserves the size
seen through every lookup. -/
theorem size_lookup_updateWindow (ws : List (String × WindowData)) (k : String)
    (f : WindowData → WindowData) (hf : ∀ v, (f v).size = v.size) (q : String) :
    (lookupWindow (updateWindow ws k f) q).map WindowData.size =
      (lookupWindow ws q).map WindowData.size := by
  by_cases h : q = k
  · subst h
    rw [lookupWindow_updateWindow_self]
    cases lookupWindow ws q with
    | none => rfl
    | some v => simp [hf v]
  · rw [lookupWindow_updateWindow_ne _ _ _ _ h]

/-- Sizes seen through lookups are invariant under an applyReclick fold. -/
theorem size_foldl_applyReclick (l : List String) (st : ManagerState) (q : String) :
    (lookupWindow (l.foldl applyReclick st).windows q).map WindowData.size =
      (lookupWindow st.windows q).map WindowData.size := by
  induction l generalizing st with
  | nil => rfl
  | cons a rest ih =>
    rw [List.foldl_cons, ih]
    exact size_lookup_updateWindow st.windows a
      (fun prev => { prev with isMinimized := false }) (fun v => rfl) q

/-- Sizes seen through lookups are invariant under applyNewApp. -/
theorem size_applyNewApp (snap : List (String × WindowData)) (st : ManagerState)
    (a q : String) :
    (lookupWindow (applyNewApp snap st a).windows q).map WindowData.size =
      (lookupWindow st.windows q).map WindowData.size := by
  cases hsnap : lookupWindow snap a with
  | none =>
    have : applyNewApp snap st a = st := by
      unfold applyNewApp
      rw [hsnap]
    rw [this]
  | some w =>
    by_cases hw : w.isOpen = false
    · have : applyNewApp snap st a = { st with
          windows := updateWindow st.windows a
            (fun prev => { prev with isOpen := true, isMinimized := false, zIndex := prev.zIndex }) } := by
        unfold applyNewApp
        rw [hsnap]
        exact if_pos hw
      rw [this]
      exact size_lookup_updateWindow st.windows a
        (fun prev => { prev with isOpen := true, isMinimized := false, zIndex := prev.zIndex })
        (fun v => rfl) q
    · have : applyNewApp snap st a = st := by
        unfold applyNewApp
        rw [hsnap]
        exact if_neg hw
      rw [this]

/-- Sizes seen through lookups are invariant under an applyNewApp fold. -/
theorem size_foldl_applyNewApp (snap : List (String × WindowData))
    (l : List String) (st : ManagerState) (q : String) :
    (lookupWindow (l.foldl (applyNewApp snap) st).windows q).map WindowData.size =
      (lookupWindow st.windows q).map WindowData.size := by
  induction l generalizing st with
  | nil => rfl
  | cons a rest ih =>
    rw [List.foldl_cons, ih, size_applyNewApp]

/-- C10: window size is constant for the lifetime of a record: the MacWindow
event loop (drag, mouse-move, mouse-up, maximize toggle, resize-handle press)
never changes the local size state, the manager operations (close, minimize,
dock-click effect) never change any record's stored size, and creation fixes
it at width 800, height 600. -/
theorem C10_window_size_never_changes :
    (∀ (s : MacWindowState) (events : List MacWindowEvent),
        (events.foldl macWindowStep s).size = s.size) ∧
    (∀ (st : ManagerState) (appId q : String),
        (lookupWindow (handleWindowClose st appId).windows q).map WindowData.size =
          (lookupWindow st.windows q).map WindowData.size) ∧
    (∀ (st : ManagerState) (appId q : String),
        (lookupWindow (handleWindowMinimize st appId).windows q).map WindowData.size =
          (lookupWindow st.windows q).map WindowData.size) ∧
    (∀ (prevOpen openL : List String) (st : ManagerState) (q : String),
        (lookupWindow (dockClickEffect prevOpen openL st).windows q).map WindowData.size =
          (lookupWindow st.windows q).map WindowData.size) ∧
    (∀ (apps : List DockApp) (st : ManagerState) (appId : String)
        (w : WindowData) (st₂ : ManagerState),
        lookupWindow st.windows appId = none →
        getWindowData apps st appId = .ok (w, st₂) →
        w.size = (800, 600)) := by
  refine ⟨?_, ?_, ?_, ?_, ?_⟩
  · intro s events
    induction events generalizing s with
    | nil => rfl
    | cons e rest ih =>
      rw [List.foldl_cons, ih]
      cases e with
      | mouseDownTitle x y l t => rfl
      | mouseMove x y =>
        show (if s.isDragging && !s.isMaximized then _ else s).size = s.size
        split
        · rfl
        · rfl
      | mouseUp => rfl
      | maximizeClick => rfl
      | resizeHandleMouseDown => rfl
  · intro st appId q
    exact size_lookup_updateWindow st.windows appId
      (fun v => { v with isOpen := false }) (fun v => rfl) q
  · intro st appId q
    exact size_lookup_updateWindow st.windows appId
      (fun v => { v with isMinimized := !v.isMinimized }) (fun v => rfl) q
  · intro prevOpen openL st q
    rw [dockClickEffect_eq, size_foldl_applyReclick, size_foldl_applyNewApp]
  · intro apps st appId w st₂ hnone hok
    cases hf : apps.find? (fun a => a.id == appId) with
    | none =>
      have herr : getWindowData apps st appId =
          .error ("App with id " ++ appId ++ " not found") := by
        unfold getWindowData
        rw [hnone, hf]
      rw [herr] at hok
      exact absurd hok (by simp)
    | some app =>
      have hgw : getWindowData apps st appId = .ok
          ({ id := appId, title := app.name, icon := app.icon, isOpen := true,
             isMinimized := false, zIndex := st.highestZIndex + 1,
             position := (windowBaseX + (st.windows.length : ℚ) * 30,
                          windowBaseY + (st.windows.length : ℚ) * 30),
             size := (windowWidth, windowHeight) },
           { windows := insertWindow st.windows appId
               { id := appId, title := app.name, icon := app.icon, isOpen := true,
                 isMinimized := false, zIndex := st.highestZIndex + 1,
                 position := (windowBaseX + (st.windows.length : ℚ) * 30,
                              windowBaseY + (st.windows.length : ℚ) * 30),
                 size := (windowWidth, windowHeight) }
             highestZIndex := st.highestZIndex + 1 }) := by
        unfold getWindowData
        rw [hnone, hf]
      rw [hgw] at hok
      injection hok with hpair
      injection hpair with hw2 hst2
      rw [← hw2]
      rfl

/-- Witness for C3 at a concrete state: close the open finder window, then
reopen it from an empty openApps list. -/
theorem C3_close_retains_geometry_and_reopen_restores_witness :
    lookupWindow demoState1.windows "finder" = some demoCreated ∧
    "finder" ∉ ([] : List String) ∧
    (lookupWindow (handleWindowClose demoState1 "finder").windows "finder" =
        some { demoCreated with isOpen := false } ∧
      (∃ w₂ : WindowData,
        lookupWindow (dockClickEffect [] (handleAppClick [] "finder")
            (handleWindowClose demoState1 "finder")).windows "finder" = some w₂ ∧
        w₂.position = demoCreated.position ∧ w₂.size = demoCreated.size ∧
        getWindowData demoApps
            (dockClickEffect [] (handleAppClick [] "finder")
              (handleWindowClose demoState1 "finder")) "finder" =
          .ok (w₂, dockClickEffect [] (handleAppClick [] "finder")
            (handleWindowClose demoState1 "finder")))) :=
  ⟨rfl, by simp,
    C3_close_retains_geometry_and_reopen_restores demoApps demoState1 "finder"
      demoCreated [] rfl (by simp)⟩

/-- Witness for C4 at a concrete state: re-click the open, non-minimized
finder window. -/
theorem C4_reopen_open_window_is_noop_witness :
    lookupWindow demoState1.windows "finder" = some demoCreated ∧
    demoCreated.isOpen = true ∧ demoCreated.isMinimized = false ∧
    "finder" ∈ ["finder"] ∧
    (handleAppClick ["finder"] "finder" = ["finder"] ∧
      lookupWindow (dockClickEffect ["finder"] (handleAppClick ["finder"] "finder")
        demoState1).windows "finder" = some demoCreated) :=
  ⟨rfl, rfl, rfl, by simp,
    C4_reopen_open_window_is_noop demoState1 ["finder"] "finder" demoCreated
      rfl rfl rfl (by simp)⟩

/-- Witness for C5 at a concrete state: create the finder record on the empty
manager state. -/
theorem C5_create_record_offset_position_next_zindex_witness :
    demoApps.find? (fun a => a.id == "finder") =
      some { id := "finder", name := "Finder", icon := "i" } ∧
    lookupWindow demoState.windows "finder" = none ∧
    (∃ (w : WindowData) (st₂ : ManagerState),
      getWindowData demoApps demoState "finder" = .ok (w, st₂) ∧
      w.position = (windowBaseX + (demoState.windows.length : ℚ) * 30,
                    windowBaseY + (demoState.windows.length : ℚ) * 30) ∧
      (∀ n : ℕ, n ≠ demoState.windows.length →
        windowBaseX + (n : ℚ) * 30 ≠
          windowBaseX + (demoState.windows.length : ℚ) * 30) ∧
      (∀ p ∈ demoState.windows, p.2.zIndex < w.zIndex) ∧
      w.zIndex = demoState.highestZIndex + 1 ∧
      st₂.highestZIndex = demoState.highestZIndex + 1) :=
  ⟨rfl, rfl,
    C5_create_record_offset_position_next_zindex demoApps demoState "finder"
      { id := "finder", name := "Finder", icon := "i" } rfl rfl (by simp [demoState])⟩

/-- Witness for C6 at a concrete state and an unknown identifier. -/
theorem C6_error_iff_unknown_witness :
    ((∃ e, getWindowData demoApps demoState "unknown" = .error e) ↔
      (lookupWindow demoState.windows "unknown" = none ∧
        demoApps.find? (fun a => a.id == "unknown") = none)) ∧
    ((lookupWindow demoState.windows "unknown" ≠ none ∨
        ∃ a ∈ demoApps, a.id = "unknown") →
      ∃ w st₂, getWindowData demoApps demoState "unknown" = .ok (w, st₂)) :=
  C6_error_iff_unknown demoApps demoState "unknown"

/-- Zeta-reduced form of dockClickStep. -/
theorem dockClickStep_eq (openApps : List String) (st : ManagerState)
    (appId : String) :
    dockClickStep openApps st appId =
      if handleAppClick openApps appId = openApps
      then (handleAppClick openApps appId, st)
      else (handleAppClick openApps appId,
        dockClickEffect openApps (handleAppClick openApps appId) st) :=
  rfl

/-- C7: re-clicking the dock icon of a minimized window is a no-op in the
program: handleAppClick returns the previous openApps unchanged, so the
dock-click effect whose reClickedApps branch would clear the minimized flag
never fires, and the window record keeps isMinimized = true; the claimed
clearing of the flag does not happen. -/
theorem C7_minimized_reclick_leaves_flag_set
    (s : ManagerState) (openApps : List String) (appId : String) (w : WindowData)
    (hw : lookupWindow s.windows appId = some w)
    (hmin : w.isMinimized = true)
    (hmem : appId ∈ openApps) :
    dockClickStep openApps s appId = (openApps, s) ∧
    (lookupWindow (dockClickStep openApps s appId).2.windows appId).map
      (fun v => v.isMinimized) = some true := by
  have hcont : openApps.contains appId = true := by simpa using hmem
  have hclick : handleAppClick openApps appId = openApps := by
    unfold handleAppClick
    rw [if_pos hcont]
  have hstep : dockClickStep openApps s appId = (openApps, s) := by
    rw [dockClickStep_eq, hclick, if_pos rfl]
  refine ⟨hstep, ?_⟩
  rw [hstep]
  show (lookupWindow s.windows appId).map (fun v => v.isMinimized) = some true
  rw [hw]
  simp [hmin]

/-- Witness for C7 at the concrete failing input: clicking the minimized
finder window leaves the state untouched and the flag still set. -/
theorem C7_minimized_reclick_leaves_flag_set_witness :
    lookupWindow demoStateMin.windows "finder" = some demoMinimized ∧
    demoMinimized.isMinimized = true ∧
    "finder" ∈ ["finder"] ∧
    (dockClickStep ["finder"] demoStateMin "finder" = (["finder"], demoStateMin) ∧
      (lookupWindow (dockClickStep ["finder"] demoStateMin "finder").2.windows
        "finder").map (fun v => v.isMinimized) = some true) :=
  ⟨rfl, rfl, by simp,
    C7_minimized_reclick_leaves_flag_set demoStateMin ["finder"] "finder"
      demoMinimized rfl rfl (by simp)⟩

/-- Witness for C10: the record created by getWindowData on the empty state
has size 800 by 600. -/
theorem C10_window_size_never_changes_witness :
    lookupWindow demoState.windows "finder" = none ∧ demoCreated.size = (800, 600) :=
  ⟨rfl, C10_window_size_never_changes.2.2.2.2 demoApps demoState "finder"
    demoCreated demoState1 rfl rfl⟩

/-- The target-scale list always has one entry per app. -/
theorem length_calculateTargetMagnification (apps : List DockApp)
    (m : Option ℝ) :
    (calculateTargetMagnification apps m).length = apps.length := by
  cases m <;> simp [calculateTargetMagnification]

/-- Entry i of the target-scale list for an active pointer is the per-icon
cosine falloff value. -/
theorem getD_calculateTargetMagnification_some (apps : List DockApp) (m : ℝ)
    (i : ℕ) (hi : i < apps.length) :
    (calculateTargetMagnification apps (some m)).getD i 0 = targetScaleAt m i := by
  have hlen : i < (calculateTargetMagnification apps (some m)).length := by
    rw [length_calculateTargetMagnification]
    exact hi
  rw [List.getD_eq_getElem _ _ hlen]
  exact List.get_mapIdx apps (fun index _ => targetScaleAt m index) i hi _

/-- Entry i of the target-scale list for a null pointer is minScale. -/
theorem getD_calculateTargetMagnification_none (apps : List DockApp)
    (i : ℕ) (hi : i < apps.length) :
    (calculateTargetMagnification apps none).getD i 0 = minScale := by
  have hlen : i < (calculateTargetMagnification apps none).length := by
    rw [length_calculateTargetMagnification]
    exact hi
  rw [List.getD_eq_getElem _ _ hlen]
  simp [calculateTargetMagnification]

/-- Closed form of the per-icon scale inside the influence window: the capped
theta simplifies away and the cosine shifts by pi, leaving an even, centered
falloff in the distance to the pointer. -/
theorem targetScaleAt_eq_of_inside (m : ℝ) (i : ℕ)
    (h : |normalIconCenter i - m| ≤ 150) :
    targetScaleAt m i =
      minScale + ((1 + Real.cos ((normalIconCenter i - m) * Real.pi / 150)) / 2) *
        (maxScale - minScale) := by
  have habs := abs_le.mp h
  simp only [targetScaleAt, effectWidth]
  rw [if_neg (by push_neg; constructor <;> [linarith [habs.1]; linarith [habs.2]])]
  have hθeq : ((normalIconCenter i - (m - 300 / 2)) / 300) * (2 * Real.pi) =
      (normalIconCenter i - m) * Real.pi / 150 + Real.pi := by
    ring
  rw [hθeq]
  have hp := Real.pi_pos
  have hmul1 : 0 ≤ (normalIconCenter i - m + 150) * Real.pi :=
    mul_nonneg (by linarith [habs.1]) hp.le
  have hmul2 : 0 ≤ (150 - (normalIconCenter i - m)) * Real.pi :=
    mul_nonneg (by linarith [habs.2]) hp.le
  have h0 : (0:ℝ) ≤ (normalIconCenter i - m) * Real.pi / 150 + Real.pi := by
    nlinarith
  have h2 : (normalIconCenter i - m) * Real.pi / 150 + Real.pi ≤ 2 * Real.pi := by
    nlinarith
  rw [max_eq_left h0, min_eq_left h2, Real.cos_add_pi]
  ring

/-- The per-icon scale is antitone in the distance to the pointer inside the
influence window. -/
theorem targetScaleAt_anti (m : ℝ) (i j : ℕ)
    (hj : |normalIconCenter j - m| ≤ 150)
    (hij : |normalIconCenter i - m| ≤ |normalIconCenter j - m|) :
    targetScaleAt m j ≤ targetScaleAt m i := by
  have hi : |normalIconCenter i - m| ≤ 150 := le_trans hij hj
  rw [targetScaleAt_eq_of_inside m i hi, targetScaleAt_eq_of_inside m j hj]
  have habs_i : Real.cos ((normalIconCenter i - m) * Real.pi / 150) =
      Real.cos (|normalIconCenter i - m| * Real.pi / 150) := by
    rw [← Real.cos_abs ((normalIconCenter i - m) * Real.pi / 150)]
    congr 1
    rw [abs_div, abs_mul, abs_of_pos Real.pi_pos]
    norm_num
  have habs_j : Real.cos ((normalIconCenter j - m) * Real.pi / 150) =
      Real.cos (|normalIconCenter j - m| * Real.pi / 150) := by
    rw [← Real.cos_abs ((normalIconCenter j - m) * Real.pi / 150)]
    congr 1
    rw [abs_div, abs_mul, abs_of_pos Real.pi_pos]
    norm_num
  rw [habs_i, habs_j]
  have hcos : Real.cos (|normalIconCenter j - m| * Real.pi / 150) ≤
      Real.cos (|normalIconCenter i - m| * Real.pi / 150) := by
    apply Real.cos_le_cos_of_nonneg_of_le_pi
    · positivity
    · have hmul := mul_le_mul_of_nonneg_right hj Real.pi_nonneg
      linarith
    · have hmul := mul_le_mul_of_nonneg_right hij Real.pi_nonneg
      linarith
  have hdelta : (0:ℝ) ≤ maxScale - minScale := by norm_num [maxScale, minScale]
  have hmul := mul_le_mul_of_nonneg_right hcos hdelta
  linarith

/-- Outside the influence window the per-icon scale is minScale. -/
theorem targetScaleAt_eq_min_of_outside (m : ℝ) (i : ℕ)
    (h : 150 < |normalIconCenter i - m|) :
    targetScaleAt m i = minScale := by
  simp only [targetScaleAt, effectWidth]
  rw [if_pos]
  rcases lt_abs.mp h with h1 | h2
  · exact Or.inr (by linarith)
  · exact Or.inl (by linarith)

/-- The per-icon scale always lies between minScale and maxScale. -/
theorem targetScaleAt_bounds (m : ℝ) (i : ℕ) :
    minScale ≤ targetScaleAt m i ∧ targetScaleAt m i ≤ maxScale := by
  simp only [targetScaleAt, effectWidth]
  by_cases h : (normalIconCenter i < m - 300 / 2 ∨ normalIconCenter i > m + 300 / 2)
  · rw [if_pos h]
    constructor
    · exact le_refl _
    · norm_num [minScale, maxScale]
  · rw [if_neg h]
    have hc1 := Real.cos_le_one (min (max (((normalIconCenter i - (m - 300 / 2)) / 300) *
      (2 * Real.pi)) 0) (2 * Real.pi))
    have hc2 := Real.neg_one_le_cos (min (max (((normalIconCenter i - (m - 300 / 2)) / 300) *
      (2 * Real.pi)) 0) (2 * Real.pi))
    constructor
    · simp only [minScale, maxScale]
      nlinarith
    · simp only [minScale, maxScale]
      nlinarith

/-- C1: for any non-null pointer offset, the target scale computed by
calculateTargetMagnification is monotonically non-increasing in the distance
between an icon's normal center and the pointer inside the influence window
(effectWidth centered on the pointer), and any icon whose normal center lies
outside the window gets the minimum scale. -/
theorem C1_scale_monotone_in_distance_min_outside
    (apps : List DockApp) (m : ℝ) (i j : ℕ)
    (hi : i < apps.length) (hj : j < apps.length) :
    (|normalIconCenter j - m| ≤ effectWidth / 2 →
      |normalIconCenter i - m| ≤ |normalIconCenter j - m| →
      (calculateTargetMagnification apps (some m)).getD j 0 ≤
        (calculateTargetMagnification apps (some m)).getD i 0) ∧
    (effectWidth / 2 < |normalIconCenter i - m| →
      (calculateTargetMagnification apps (some m)).getD i 0 = minScale) := by
  have hew : effectWidth / 2 = (150:ℝ) := by norm_num [effectWidth]
  rw [getD_calculateTargetMagnification_some apps m i hi,
    getD_calculateTargetMagnification_some apps m j hj, hew]
  exact ⟨fun h1 h2 => targetScaleAt_anti m i j h1 h2,
    fun h1 => targetScaleAt_eq_min_of_outside m i h1⟩

/-- Witness for C1 on a concrete dock: with the pointer at 100, icon 1
(center 104) is nearer than icon 0 (center 32) and scales at least as much;
with the pointer at 500, icon 1 is outside the window and gets scale 1. -/
theorem C1_scale_monotone_in_distance_min_outside_witness :
    (|normalIconCenter 0 - (100:ℝ)| ≤ effectWidth / 2 ∧
      |normalIconCenter 1 - (100:ℝ)| ≤ |normalIconCenter 0 - (100:ℝ)| ∧
      (calculateTargetMagnification demoApps (some 100)).getD 0 0 ≤
        (calculateTargetMagnification demoApps (some 100)).getD 1 0) ∧
    (effectWidth / 2 < |normalIconCenter 1 - (500:ℝ)| ∧
      (calculateTargetMagnification demoApps (some 500)).getD 1 0 = minScale) := by
  have e0 : normalIconCenter 0 = (32:ℝ) := by
    norm_num [normalIconCenter, baseIconSize, baseSpacing]
  have e1 : normalIconCenter 1 = (104:ℝ) := by
    norm_num [normalIconCenter, baseIconSize, baseSpacing]
  have hew : effectWidth / 2 = (150:ℝ) := by norm_num [effectWidth]
  have h1 : |normalIconCenter 0 - (100:ℝ)| ≤ effectWidth / 2 := by
    rw [e0, hew]
    norm_num
  have h2 : |normalIconCenter 1 - (100:ℝ)| ≤ |normalIconCenter 0 - (100:ℝ)| := by
    rw [e0, e1]
    norm_num
  have h3 : effectWidth / 2 < |normalIconCenter 1 - (500:ℝ)| := by
    rw [e1, hew]
    norm_num
  have hlen0 : 0 < demoApps.length := by norm_num [demoApps]
  have hlen1 : 1 < demoApps.length := by norm_num [demoApps]
  exact ⟨⟨h1, h2,
      (C1_scale_monotone_in_distance_min_outside demoApps 100 1 0 hlen1 hlen0).1 h1 h2⟩,
    ⟨h3,
      (C1_scale_monotone_in_distance_min_outside demoApps 500 1 0 hlen1 hlen0).2 h3⟩⟩

/-- C9: for every pointer position (including none) and icon index the target
scale lies in the closed interval from minScale to maxScale; in particular it
is never below 1 and never negative (NaN is not representable in this real
model, matching the clamped numeric code). -/
theorem C9_scale_within_bounds (apps : List DockApp) (mouse : Option ℝ)
    (i : ℕ) (hi : i < apps.length) :
    minScale ≤ (calculateTargetMagnification apps mouse).getD i 0 ∧
    (calculateTargetMagnification apps mouse).getD i 0 ≤ maxScale := by
  cases mouse with
  | none =>
    rw [getD_calculateTargetMagnification_none apps i hi]
    constructor
    · exact le_refl _
    · norm_num [minScale, maxScale]
  | some m =>
    rw [getD_calculateTargetMagnification_some apps m i hi]
    exact targetScaleAt_bounds m i

/-- Witness for C9 at a concrete index and a null pointer. -/
theorem C9_scale_within_bounds_witness :
    0 < demoApps.length ∧
    (minScale ≤ (calculateTargetMagnification demoApps none).getD 0 0 ∧
      (calculateTargetMagnification demoApps none).getD 0 0 ≤ maxScale) :=
  ⟨by norm_num [demoApps], C9_scale_within_bounds demoApps none 0 (by norm_num [demoApps])⟩

/-- C2 (amended): whenever a current value differs from its target, the
interpolation step with factor 0.2 (pointer active) or 0.12 (pointer null)
strictly reduces the absolute distance to the target and never overshoots
past the target (the step stays on the same side of the target as the
current value). -/
theorem C2_lerp_strictly_contracts (mouseX : Option ℝ) (current target : ℝ)
    (h : current ≠ target) :
    |lerpStep current target (lerpFactor mouseX) - target| < |current - target| ∧
    0 ≤ (lerpStep current target (lerpFactor mouseX) - target) * (current - target) := by
  have hf : lerpFactor mouseX = 0.2 ∨ lerpFactor mouseX = 0.12 := by
    unfold lerpFactor
    by_cases hs : mouseX.isSome
    · left
      rw [if_pos hs]
    · right
      rw [if_neg hs]
  have hkey : lerpStep current target (lerpFactor mouseX) - target =
      (current - target) * (1 - lerpFactor mouseX) := by
    unfold lerpStep
    ring
  have hpos : 0 < |current - target| := abs_pos.mpr (sub_ne_zero.mpr h)
  have hfb : 0 < lerpFactor mouseX ∧ lerpFactor mouseX < 1 := by
    rcases hf with h1 | h1 <;> rw [h1] <;> norm_num
  constructor
  · rw [hkey, abs_mul,
      abs_of_pos (show (0:ℝ) < 1 - lerpFactor mouseX by linarith [hfb.2])]
    have hprod := mul_pos hpos hfb.1
    nlinarith
  · rw [hkey]
    have hsq := mul_nonneg (sq_nonneg (current - target))
      (show (0:ℝ) ≤ 1 - lerpFactor mouseX by linarith [hfb.2])
    nlinarith

/-- Counterexample to C2 as stated: at current = target (reachable while the
pointer rests inside the dock with icons settled), the tick does not strictly
reduce the distance, which stays zero. -/
theorem C2_lerp_strictly_contracts_cex :
    ¬ (|lerpStep 1 1 (lerpFactor (some 0)) - 1| < |(1:ℝ) - 1|) := by
  norm_num [lerpStep, lerpFactor]

/-- Witness for C2 at a concrete step from 0 toward 1 with an active
pointer. -/
theorem C2_lerp_strictly_contracts_witness :
    (0:ℝ) ≠ 1 ∧
    (|lerpStep 0 1 (lerpFactor (some 0)) - 1| < |(0:ℝ) - 1| ∧
      0 ≤ (lerpStep 0 1 (lerpFactor (some 0)) - 1) * ((0:ℝ) - 1)) :=
  ⟨by norm_num, C2_lerp_strictly_contracts (some 0) 0 1 (by norm_num)⟩

/-- C8: the tick reschedules exactly when the pointer is active or some
current scale is farther than 0.002 from its target or some current position
is farther than 0.1 from its target; equivalently the loop self-terminates
exactly when the pointer is null and every current value is within tolerance
of its target. -/
theorem C8_reschedule_iff_active_or_beyond_tolerance (apps : List DockApp)
    (mouseX : Option ℝ) (currentScales currentPositions : List ℝ) :
    (reschedules apps mouseX currentScales currentPositions ↔
      (mouseX ≠ none ∨
        scalesNeedUpdate currentScales (calculateTargetMagnification apps mouseX) ∨
        positionsNeedUpdate currentPositions
          (calculatePositions (calculateTargetMagnification apps mouseX)))) ∧
    (¬ reschedules apps mouseX currentScales currentPositions ↔
      (mouseX = none ∧
        (∀ i : ℕ, ∀ h : i < currentScales.length,
          |currentScales.get ⟨i, h⟩ -
            (calculateTargetMagnification apps mouseX).getD i 0| ≤ 0.002) ∧
        (∀ i : ℕ, ∀ h : i < currentPositions.length,
          |currentPositions.get ⟨i, h⟩ -
            (calculatePositions (calculateTargetMagnification apps mouseX)).getD i 0| ≤ 0.1))) := by
  constructor
  · unfold reschedules
    tauto
  · unfold reschedules scalesNeedUpdate positionsNeedUpdate
    push_neg
    constructor
    · rintro ⟨ha, hb, hc⟩
      exact ⟨hc, ha, hb⟩
    · rintro ⟨hc, ha, hb⟩
      exact ⟨ha, hb, hc⟩

/-- Witness for C8 at a concrete quiescent configuration. -/
theorem C8_reschedule_iff_active_or_beyond_tolerance_witness :
    (reschedules demoApps none [] [] ↔
      ((none : Option ℝ) ≠ none ∨
        scalesNeedUpdate [] (calculateTargetMagnification demoApps none) ∨
        positionsNeedUpdate []
          (calculatePositions (calculateTargetMagnification demoApps none)))) ∧
    (¬ reschedules demoApps none [] [] ↔
      ((none : Option ℝ) = none ∧
        (∀ i : ℕ, ∀ h : i < ([] : List ℝ).length,
          |([] : List ℝ).get ⟨i, h⟩ -
            (calculateTargetMagnification demoApps none).getD i 0| ≤ 0.002) ∧
        (∀ i : ℕ, ∀ h : i < ([] : List ℝ).length,
          |([] : List ℝ).get ⟨i, h⟩ -
            (calculatePositions (calculateTargetMagnification demoApps none)).getD i 0| ≤ 0.1))) :=
  C8_reschedule_iff_active_or_beyond_tolerance demoApps none [] []

end MacSim
